import Mathlib

/-!
Shallow embedding of `infra/functions/budget_guard/main.py` (the budget-guard
Cloud Function) and proofs of its specified properties.

Modelling conventions:
- Python floats become `ℚ` (exact arithmetic over the decimal amounts).
- The decoded JSON payload becomes an association list `List (String × ℚ)`;
  `dict.get(k, 0)` becomes `(List.lookup k p).getD 0`, and Python dict
  truthiness of the payload becomes `List.isEmpty`.
- The remote API is a `World` record: a policy per resource for
  `getIamPolicy`, an optional operation handle per resource for `patch`, and
  an operation state per (name, time) for `operations.get`.
- Mutating outbound calls (`setIamPolicy`, `patch`) are collected in a trace;
  raised exceptions become an `Option GuardError` threaded through the loop.
- Wall-clock time in `_wait_operation` becomes a discrete `Nat` clock that
  advances by 2 per sleep, polling while strictly before `now + timeout`.
-/

namespace BudgetGuard

/-- One IAM binding: `{"role": ..., "members": [...]}` plus any other keys
(`rest`), which `dict(binding)` copies through unchanged. -/
structure Binding where
  role : String
  members : List String
  rest : List (String × String)
deriving DecidableEq, Repr

/-- A fetched IAM policy: its `bindings` list plus any other top-level keys
(etag, version, ...), which the write sends back unchanged. -/
structure Policy where
  bindings : List Binding
  rest : List (String × String)
deriving DecidableEq, Repr

/-- A mutating outbound API call issued by the guard. -/
inductive Call where
  | setIamPolicy (resource : String) (policy : Policy)
  | patchIngress (name : String)
deriving DecidableEq, Repr

/-- A long-running operation as observed by one poll:
`operation.get("done")` and `operation.get("error")`. -/
structure Operation where
  done : Bool
  error : Option String
deriving DecidableEq, Repr

/-- Result of `_wait_operation`: normal return, the `RuntimeError` raised on a
completed operation with an error field, or the `TimeoutError`. -/
inductive WaitResult where
  | success
  | operationFailed (detail : String)
  | operationTimeout
deriving DecidableEq, Repr

/-- An exception escaping a service's remediation. -/
inductive GuardError where
  | operationFailed (detail : String)
  | operationTimeout (name : String)
deriving DecidableEq, Repr

/-- The remote API surface seen by one invocation. -/
structure World where
  policyOf : String → Policy
  patchOpName : String → Option String
  opPoll : String → Nat → Operation

/-- `str.lower()`, modelled character-wise (agrees with Python on every
string for the membership test below: non-ASCII characters never lowercase
into the four ASCII keywords). -/
def lowerString (s : String) : String := String.mk (s.data.map Char.toLower)

/-- `_to_bool`: true iff the value is present and lowercases to one of
`"1"`, `"true"`, `"yes"`, `"on"`. -/
def toBool : Option String → Bool
  | none => false
  | some value =>
      let lowered := lowerString value
      lowered == "1" || lowered == "true" || lowered == "yes" || lowered == "on"

/-- A decoded budget-alert payload: the numeric JSON fields. -/
def Payload := List (String × ℚ)

/-- Failure mode of the base64 → UTF-8 → JSON pipeline in `_parse_payload`. -/
inductive DecodeError where
  | badBase64
  | badUtf8
  | badJson
deriving DecidableEq, Repr

/-- `_parse_payload`: missing or empty `message.data` yields `{}`; otherwise
the decode pipeline (passed in as `decode`, standing for
`json.loads(base64.b64decode(encoded).decode("utf-8"))`) runs and any failure
propagates as an exception. -/
def parsePayload (decode : String → Except DecodeError Payload)
    (msgData : Option String) : Except DecodeError Payload :=
  let encoded := msgData.getD ""
  if encoded = "" then .ok ([] : List (String × ℚ))
  else decode encoded

def invokerRole : String := "roles/run.invoker"

def publicMember : String := "allUsers"

/-- The binding-rewrite loop of `_drop_public_invoker` (lines 46-59): returns
the `updated_bindings` list and the `removed` flag. -/
def rewriteBindings : List Binding → List Binding × Bool
  | [] => ([], false)
  | binding :: restBindings =>
      let tail := rewriteBindings restBindings
      if binding.role != invokerRole then
        (binding :: tail.1, tail.2)
      else
        let filteredMembers := binding.members.filter (fun m => m != publicMember)
        let removedHere := filteredMembers.length != binding.members.length
        if filteredMembers.isEmpty then
          (tail.1, removedHere || tail.2)
        else
          ({ binding with members := filteredMembers } :: tail.1, removedHere || tail.2)

/-- `_drop_public_invoker` on the fetched policy: returns the Python return
value and the mutating calls issued (`getIamPolicy` is a read and not traced). -/
def dropPublicInvoker (policy : Policy) (serviceName : String) (dryRun : Bool) :
    Bool × List Call :=
  let result := rewriteBindings policy.bindings
  if !result.2 then
    (false, [])
  else if dryRun then
    (true, [])
  else
    (true, [Call.setIamPolicy serviceName { policy with bindings := result.1 }])

/-- Per-binding rewrite: what `_drop_public_invoker` keeps of one binding
(`none` = the binding is dropped). Used to characterise the rewritten list. -/
def rewriteOne (binding : Binding) : Option Binding :=
  if binding.role != invokerRole then some binding
  else
    let filteredMembers := binding.members.filter (fun m => m != publicMember)
    if filteredMembers.isEmpty then none
    else some { binding with members := filteredMembers }

/-- Default `timeout_seconds` of `_wait_operation`. -/
def defaultTimeoutSeconds : Nat := 120

/-- `_wait_operation`'s completion handling: return normally when no error
field is present, raise `RuntimeError` otherwise. -/
def completedResult (op : Operation) : WaitResult :=
  match op.error with
  | some detail => WaitResult.operationFailed detail
  | none => WaitResult.success

/-- The polling loop of `_wait_operation`: while the clock is strictly before
the deadline, poll; on a completed poll return/raise; otherwise sleep 2 units
and retry. Falling out of the loop raises `TimeoutError`. -/
def waitLoop (poll : Nat → Operation) (now deadline : Nat) : WaitResult :=
  if h : now < deadline then
    let op := poll now
    if op.done then completedResult op
    else waitLoop poll (now + 2) deadline
  else
    WaitResult.operationTimeout
termination_by deadline - now
decreasing_by simp_wf; omega

/-- `_wait_operation`: deadline is `now + timeout_seconds`. -/
def waitOperation (poll : Nat → Operation) (now timeoutSeconds : Nat) : WaitResult :=
  waitLoop poll now (now + timeoutSeconds)

/-- `_restrict_ingress`: the mutating calls issued and the exception escaping
it, if any. In dry-run nothing is issued; otherwise the patch is issued and,
when the response carries an operation name, the waiter runs (polling from
relative time 0 with the default timeout). -/
def restrictIngress (world : World) (serviceName : String) (dryRun : Bool) :
    List Call × Option GuardError :=
  if dryRun then ([], none)
  else
    let calls := [Call.patchIngress serviceName]
    match world.patchOpName serviceName with
    | none => (calls, none)
    | some opName =>
        match waitOperation (world.opPoll opName) 0 defaultTimeoutSeconds with
        | WaitResult.success => (calls, none)
        | WaitResult.operationFailed detail => (calls, some (GuardError.operationFailed detail))
        | WaitResult.operationTimeout => (calls, some (GuardError.operationTimeout opName))

/-- One iteration of the orchestrator's service loop (lines 131-135): policy
editor first, then ingress restrictor. -/
def remediateService (world : World) (dryRun : Bool) (serviceName : String) :
    List Call × Option GuardError :=
  let dropCalls := (dropPublicInvoker (world.policyOf serviceName) serviceName dryRun).2
  let ingress := restrictIngress world serviceName dryRun
  (dropCalls ++ ingress.1, ingress.2)

/-- The orchestrator's service loop: services in list order; the first
escaping exception aborts the remaining services. -/
def remediateServices (world : World) (dryRun : Bool) : List String → List Call × Option GuardError
  | [] => ([], none)
  | serviceName :: restServices =>
      let step := remediateService world dryRun serviceName
      match step.2 with
      | some e => (step.1, some e)
      | none =>
          let tail := remediateServices world dryRun restServices
          (step.1 ++ tail.1, tail.2)

/-- The environment-derived configuration read by `handle_budget_alert`.
`budgetStopThreshold` stands for the already-parsed
`float(os.getenv("BUDGET_STOP_THRESHOLD", "1.0"))`; `region` for
`os.getenv("CLOUD_RUN_REGION", "us-central1")` with its default applied. -/
structure Config where
  budgetStopThreshold : ℚ
  dryRunRaw : Option String
  projectId : Option String
  region : String
  servicesRaw : String

/-- `str.split(",")` over the character list: split at every comma, keeping
empty pieces (Python `"".split(",") == [""]`). -/
def splitCommaAux : List Char → List Char → List (List Char)
  | [], acc => [acc.reverse]
  | c :: cs, acc =>
      if c = ',' then acc.reverse :: splitCommaAux cs []
      else splitCommaAux cs (c :: acc)

/-- `str.strip()`: drop whitespace from both ends. -/
def stripChars (cs : List Char) : List Char :=
  ((cs.dropWhile Char.isWhitespace).reverse.dropWhile Char.isWhitespace).reverse

/-- `[service.strip() for service in services_raw.split(",") if service.strip()]`. -/
def parseServices (raw : String) : List String :=
  (((splitCommaAux raw.data []).map (fun cs => String.mk (stripChars cs))).filter
    (fun s => s != ""))

/-- Python falsiness of `os.getenv("GCP_PROJECT_ID")`: unset or empty. -/
def strFalsy : Option String → Bool
  | none => true
  | some s => s == ""

/-- `f"projects/{project_id}/locations/{region}/services/{service}"`. -/
def qualifiedName (projectId region service : String) : String :=
  "projects/" ++ projectId ++ "/locations/" ++ region ++ "/services/" ++ service

/-- Outcome of one invocation of `handle_budget_alert`. -/
inductive HandlerOutcome where
  | malformedPayload (e : DecodeError)
  | emptyPayload
  | invalidBudget
  | belowThreshold
  | missingConfig
  | aborted (e : GuardError)
  | finished (serviceCount : Nat)
deriving DecidableEq, Repr

/-- `handle_budget_alert` from line 116 on: config check, then the service
loop, then the final count. -/
def remediationPhase (cfg : Config) (world : World) (dryRun : Bool) :
    HandlerOutcome × List Call :=
  let services := parseServices cfg.servicesRaw
  if strFalsy cfg.projectId || services.isEmpty then (HandlerOutcome.missingConfig, [])
  else
    let qualified := services.map (qualifiedName (cfg.projectId.getD "") cfg.region)
    let run := remediateServices world dryRun qualified
    match run.2 with
    | some e => (HandlerOutcome.aborted e, run.1)
    | none => (HandlerOutcome.finished services.length, run.1)

/-- `handle_budget_alert` given the result of `_parse_payload` (a decode
exception propagates out of the handler unhandled). -/
def handleBudgetAlert (cfg : Config) (world : World)
    (parsed : Except DecodeError Payload) : HandlerOutcome × List Call :=
  match parsed with
  | .error e => (HandlerOutcome.malformedPayload e, [])
  | .ok payload =>
      if payload.isEmpty then (HandlerOutcome.emptyPayload, [])
      else
        let costAmount := (List.lookup "costAmount" payload).getD 0
        let budgetAmount := (List.lookup "budgetAmount" payload).getD 0
        let dryRun := toBool cfg.dryRunRaw
        if budgetAmount ≤ 0 then (HandlerOutcome.invalidBudget, [])
        else
          let ratio := costAmount / budgetAmount
          if ratio < cfg.budgetStopThreshold then (HandlerOutcome.belowThreshold, [])
          else remediationPhase cfg world dryRun

/-- The whole invocation: decode, then handle. -/
def runAlert (decode : String → Except DecodeError Payload) (cfg : Config)
    (world : World) (msgData : Option String) : HandlerOutcome × List Call :=
  handleBudgetAlert cfg world (parsePayload decode msgData)

/-- A concrete world for witnesses: empty policies, synchronous patches. -/
def sampleWorld : World :=
  { policyOf := fun _ => { bindings := [], rest := [] }
    patchOpName := fun _ => none
    opPoll := fun _ _ => { done := true, error := none } }

/-- A concrete configuration with no project id configured. -/
def cfgNoProject : Config :=
  { budgetStopThreshold := 1
    dryRunRaw := none
    projectId := none
    region := "us-central1"
    servicesRaw := "" }

/-- A concrete fully-populated configuration. -/
def cfgFull : Config :=
  { budgetStopThreshold := 1
    dryRunRaw := none
    projectId := some "proj"
    region := "us-central1"
    servicesRaw := "api,web" }

end BudgetGuard

namespace BudgetGuard

theorem remediationPhase_fst_ne_below (cfg : Config) (world : World) (d : Bool) :
    (remediationPhase cfg world d).1 ≠ HandlerOutcome.belowThreshold := by
  by_cases h : (strFalsy cfg.projectId || (parseServices cfg.servicesRaw).isEmpty) = true
  · simp [remediationPhase, h]
  · simp only [remediationPhase, h, if_false, Bool.false_eq_true]
    split <;> simp

/-- C10: the dry-run flag is enabled iff the configured value, lowercased, is
exactly one of "1", "true", "yes", "on"; an unset value or any other string
(e.g. "enabled") yields false. -/
theorem dry_run_flag_parsing :
    (∀ v : Option String, toBool v = true ↔
      ∃ s, v = some s ∧ (lowerString s = "1" ∨ lowerString s = "true" ∨
        lowerString s = "yes" ∨ lowerString s = "on")) ∧
    toBool none = false ∧ toBool (some "enabled") = false ∧
    toBool (some "TRUE") = true := by
  refine ⟨?_, rfl, by decide, by decide⟩
  intro v
  cases v with
  | none => simp [toBool]
  | some s => simp [toBool, Bool.or_eq_true, beq_iff_eq, or_assoc]

/-- C2: with a non-empty payload and `budgetAmount <= 0`, the handler skips
with no remediation calls, for every cost and threshold. -/
theorem invalid_budget_no_remediation (cfg : Config) (world : World)
    (payload : Payload) (hne : payload.isEmpty = false)
    (hb : (List.lookup "budgetAmount" payload).getD 0 ≤ 0) :
    handleBudgetAlert cfg world (.ok payload) = (HandlerOutcome.invalidBudget, []) := by
  simp [handleBudgetAlert, hne, hb]

/-- Witness for C2 at `budgetAmount = -5`. -/
theorem invalid_budget_no_remediation_witness :
    handleBudgetAlert cfgFull sampleWorld (.ok [("costAmount", 7), ("budgetAmount", -5)]) =
      (HandlerOutcome.invalidBudget, []) :=
  invalid_budget_no_remediation cfgFull sampleWorld
    [("costAmount", 7), ("budgetAmount", -5)] (by decide) (by decide)

/-- C3: in dry-run the policy editor issues no write (yet still reports
whether it would have changed the policy, in particular `true` when the
filtering removed a member) and the ingress restrictor issues no patch and
starts no operation. -/
theorem dry_run_no_mutation (policy : Policy) (serviceName : String) (world : World) :
    (dropPublicInvoker policy serviceName true).2 = [] ∧
    (dropPublicInvoker policy serviceName true).1 = (rewriteBindings policy.bindings).2 ∧
    restrictIngress world serviceName true = ([], none) := by
  refine ⟨?_, ?_, rfl⟩ <;>
    unfold dropPublicInvoker <;>
    cases h : (rewriteBindings policy.bindings).2 <;> simp [h]

/-- C7: when payload data is present but the decode pipeline fails, the
invocation surfaces the decode error and issues no call; the outcome is
neither the empty-payload path nor the below-threshold path. -/
theorem malformed_payload_aborts (decode : String → Except DecodeError Payload)
    (cfg : Config) (world : World) (s : String) (e : DecodeError)
    (hs : s ≠ "") (hd : decode s = .error e) :
    runAlert decode cfg world (some s) = (HandlerOutcome.malformedPayload e, []) := by
  simp [runAlert, parsePayload, hs, hd, handleBudgetAlert]

/-- Witness for C7 with a decoder that rejects its input. -/
theorem malformed_payload_aborts_witness :
    runAlert (fun _ => Except.error DecodeError.badJson) cfgFull sampleWorld (some "x") =
      (HandlerOutcome.malformedPayload DecodeError.badJson, []) :=
  malformed_payload_aborts (fun _ => Except.error DecodeError.badJson)
    cfgFull sampleWorld "x" DecodeError.badJson (by decide) rfl

/-- C9: a missing `budgetAmount` is read as 0, hence treated as an invalid
budget; a missing `costAmount` is read as 0, hence skips (ratio 0) for every
positive budget and positive threshold. -/
theorem absent_fields_read_as_zero (cfg : Config) (world : World)
    (payload : Payload) (hne : payload.isEmpty = false) :
    (List.lookup "budgetAmount" payload = none →
      handleBudgetAlert cfg world (.ok payload) = (HandlerOutcome.invalidBudget, [])) ∧
    (List.lookup "costAmount" payload = none →
      0 < (List.lookup "budgetAmount" payload).getD 0 →
      0 < cfg.budgetStopThreshold →
      handleBudgetAlert cfg world (.ok payload) = (HandlerOutcome.belowThreshold, [])) := by
  constructor
  · intro hmiss
    exact invalid_budget_no_remediation cfg world payload hne (by simp [hmiss])
  · intro hmiss hb hθ
    have hb' : ¬ ((List.lookup "budgetAmount" payload).getD 0 ≤ 0) := not_le.mpr hb
    have hr : ((List.lookup "costAmount" payload).getD 0 /
        (List.lookup "budgetAmount" payload).getD 0) < cfg.budgetStopThreshold := by
      simp [hmiss, hθ]
    simp [handleBudgetAlert, hne, hb', hr]

end BudgetGuard

namespace BudgetGuard

/-- Witness for C9: a payload lacking `budgetAmount` skips as invalid budget;
a payload lacking `costAmount` with budget 100 and threshold 1 skips as below
threshold. -/
theorem absent_fields_read_as_zero_witness :
    handleBudgetAlert cfgFull sampleWorld (.ok [("costAmount", 7)]) =
      (HandlerOutcome.invalidBudget, []) ∧
    handleBudgetAlert cfgFull sampleWorld (.ok [("budgetAmount", 100)]) =
      (HandlerOutcome.belowThreshold, []) :=
  ⟨(absent_fields_read_as_zero cfgFull sampleWorld [("costAmount", 7)] (by decide)).1
      (by decide),
   (absent_fields_read_as_zero cfgFull sampleWorld [("budgetAmount", 100)] (by decide)).2
      (by decide) (by decide) (by decide)⟩

/-- C1: with a non-empty payload and a positive budget, the handler skips
without remediation calls exactly when `costAmount / budgetAmount` is
strictly below the threshold, and proceeds to the remediation phase whenever
the ratio is at least the threshold (boundary equality included). -/
theorem threshold_guard_inclusive (cfg : Config) (world : World) (payload : Payload)
    (hne : payload.isEmpty = false)
    (hb : 0 < (List.lookup "budgetAmount" payload).getD 0) :
    (handleBudgetAlert cfg world (.ok payload) = (HandlerOutcome.belowThreshold, []) ↔
      (List.lookup "costAmount" payload).getD 0 /
          (List.lookup "budgetAmount" payload).getD 0 < cfg.budgetStopThreshold) ∧
    (cfg.budgetStopThreshold ≤
        (List.lookup "costAmount" payload).getD 0 /
          (List.lookup "budgetAmount" payload).getD 0 →
      handleBudgetAlert cfg world (.ok payload) =
        remediationPhase cfg world (toBool cfg.dryRunRaw)) := by
  have hb' : ¬ ((List.lookup "budgetAmount" payload).getD 0 ≤ 0) := not_le.mpr hb
  have hproceed : ∀ _ : cfg.budgetStopThreshold ≤
      (List.lookup "costAmount" payload).getD 0 /
        (List.lookup "budgetAmount" payload).getD 0,
      handleBudgetAlert cfg world (.ok payload) =
        remediationPhase cfg world (toBool cfg.dryRunRaw) := by
    intro hge
    have hr : ¬ ((List.lookup "costAmount" payload).getD 0 /
        (List.lookup "budgetAmount" payload).getD 0 < cfg.budgetStopThreshold) :=
      not_lt.mpr hge
    simp [handleBudgetAlert, hne, hb', hr]
  refine ⟨⟨?_, ?_⟩, hproceed⟩
  · intro h
    by_contra hlt
    rw [not_lt] at hlt
    rw [hproceed hlt] at h
    exact remediationPhase_fst_ne_below cfg world (toBool cfg.dryRunRaw) (by rw [h])
  · intro hlt
    simp [handleBudgetAlert, hne, hb', hlt]

/-- Witness for C1 at the boundary `ratio = threshold = 1`: the guard fires
(here reaching the missing-config exit, since no project is configured). -/
theorem threshold_guard_inclusive_witness :
    handleBudgetAlert cfgNoProject sampleWorld
        (.ok [("costAmount", 100), ("budgetAmount", 100)]) =
      (HandlerOutcome.missingConfig, []) := by
  have h := (threshold_guard_inclusive cfgNoProject sampleWorld
      [("costAmount", 100), ("budgetAmount", 100)] (by decide) (by decide)).2
      (by show (1 : ℚ) ≤ (100 : ℚ) / (100 : ℚ); norm_num)
  rw [h]
  decide

end BudgetGuard

namespace BudgetGuard

theorem filter_public_idem (l : List String) :
    (l.filter (fun m => m != publicMember)).filter (fun m => m != publicMember) =
      l.filter (fun m => m != publicMember) :=
  List.filter_eq_self.mpr (fun _ ha => (List.mem_filter.mp ha).2)

theorem rewriteBindings_idem : ∀ bs : List Binding,
    rewriteBindings (rewriteBindings bs).1 = ((rewriteBindings bs).1, false) := by
  intro bs
  induction bs with
  | nil => rfl
  | cons b rest ih =>
    by_cases hrole : (b.role != invokerRole) = true
    · simp [rewriteBindings, hrole, ih]
    · by_cases hf : ((b.members.filter (fun m => m != publicMember)).isEmpty) = true
      · simp [rewriteBindings, hrole, hf, ih]
      · simp [rewriteBindings, hrole, hf, ih, filter_public_idem]

theorem rewriteBindings_eq_filterMap : ∀ bs : List Binding,
    (rewriteBindings bs).1 = bs.filterMap rewriteOne := by
  intro bs
  induction bs with
  | nil => rfl
  | cons b rest ih =>
    by_cases hrole : (b.role != invokerRole) = true
    · simp [rewriteBindings, rewriteOne, hrole, ih]
    · by_cases hf : ((b.members.filter (fun m => m != publicMember)).isEmpty) = true
      · simp [rewriteBindings, rewriteOne, hrole, hf, ih]
      · simp [rewriteBindings, rewriteOne, hrole, hf, ih]

theorem rewriteBindings_keeps_noninvoker : ∀ bs : List Binding,
    ((rewriteBindings bs).1).filter (fun b => b.role != invokerRole) =
      bs.filter (fun b => b.role != invokerRole) := by
  intro bs
  induction bs with
  | nil => rfl
  | cons b rest ih =>
    by_cases hrole : (b.role != invokerRole) = true
    · simp [rewriteBindings, hrole, ih]
    · by_cases hf : ((b.members.filter (fun m => m != publicMember)).isEmpty) = true
      · simp [rewriteBindings, hrole, hf, ih]
      · simp [rewriteBindings, hrole, hf, ih]

/-- C4: the policy editor is idempotent: when filtering removed no member it
returns `false` with no write, and on an already-rewritten policy it always
returns `false` with no write, for any dry-run setting. -/
theorem drop_public_invoker_idempotent (policy : Policy) (serviceName : String)
    (dryRun : Bool) :
    ((rewriteBindings policy.bindings).2 = false →
      dropPublicInvoker policy serviceName dryRun = (false, [])) ∧
    dropPublicInvoker { policy with bindings := (rewriteBindings policy.bindings).1 }
        serviceName dryRun = (false, []) := by
  constructor
  · intro h
    simp [dropPublicInvoker, h]
  · simp [dropPublicInvoker, rewriteBindings_idem]

/-- A concrete policy with a public invoker grant, for witnesses. -/
def samplePolicy : Policy :=
  { bindings :=
      [{ role := invokerRole, members := ["allUsers", "user:alice"], rest := [] },
       { role := "roles/viewer", members := ["allUsers"], rest := [] }]
    rest := [("etag", "abc")] }

/-- A concrete policy with no public invoker grant, for witnesses. -/
def cleanPolicy : Policy :=
  { bindings := [{ role := invokerRole, members := ["user:alice"], rest := [] }]
    rest := [] }

/-- Witness for C4: a second run on the rewritten sample policy, and a run on
an already-clean policy, both return `(false, [])`. -/
theorem drop_public_invoker_idempotent_witness :
    dropPublicInvoker
        { samplePolicy with bindings := (rewriteBindings samplePolicy.bindings).1 }
        "svc" false = (false, []) ∧
    dropPublicInvoker cleanPolicy "svc" false = (false, []) :=
  ⟨(drop_public_invoker_idempotent samplePolicy "svc" false).2,
   (drop_public_invoker_idempotent cleanPolicy "svc" false).1 (by decide)⟩

/-- C5: the rewritten binding list is the per-binding rewrite of the fetched
list (public member filtered from invoker bindings, emptied invoker bindings
omitted); non-invoker bindings pass through unchanged in order; and every
surviving invoker binding has no public member and a non-empty member list. -/
theorem rewrite_bindings_shape (bs : List Binding) :
    (rewriteBindings bs).1 = bs.filterMap rewriteOne ∧
    ((rewriteBindings bs).1).filter (fun b => b.role != invokerRole) =
      bs.filter (fun b => b.role != invokerRole) ∧
    ∀ b ∈ (rewriteBindings bs).1, b.role = invokerRole →
      publicMember ∉ b.members ∧ b.members ≠ [] := by
  refine ⟨rewriteBindings_eq_filterMap bs, rewriteBindings_keeps_noninvoker bs, ?_⟩
  intro b hb hrole
  rw [rewriteBindings_eq_filterMap] at hb
  obtain ⟨a, _, ha⟩ := List.mem_filterMap.mp hb
  unfold rewriteOne at ha
  by_cases hr : (a.role != invokerRole) = true
  · rw [if_pos hr] at ha
    obtain rfl := Option.some.inj ha
    rw [hrole] at hr
    simp at hr
  · rw [if_neg hr] at ha
    by_cases hf : ((a.members.filter (fun m => m != publicMember)).isEmpty) = true
    · simp only [hf, if_true] at ha
      exact absurd ha (by simp)
    · simp only [hf, if_false, Bool.false_eq_true] at ha
      obtain rfl := Option.some.inj ha
      constructor
      · intro hmem
        have := (List.mem_filter.mp hmem).2
        simp at this
      · intro hempty
        rw [List.isEmpty_iff] at hf
        exact hf (by simpa using hempty)

/-- Witness for C5: the surviving invoker binding of the sample policy has the
public member removed and is non-empty. -/
theorem rewrite_bindings_shape_witness :
    publicMember ∉ (Binding.mk invokerRole ["user:alice"] []).members ∧
    (Binding.mk invokerRole ["user:alice"] []).members ≠ [] :=
  (rewrite_bindings_shape samplePolicy.bindings).2.2
    (Binding.mk invokerRole ["user:alice"] []) (by decide) rfl

end BudgetGuard

namespace BudgetGuard

theorem remediateServices_all_ok (world : World) (dryRun : Bool) :
    ∀ ss : List String, (∀ s ∈ ss, (remediateService world dryRun s).2 = none) →
      remediateServices world dryRun ss =
        ((ss.map (fun s => (remediateService world dryRun s).1)).flatten, none) := by
  intro ss h
  induction ss with
  | nil => rfl
  | cons s rest ih =>
    have hs := h s (List.mem_cons_self s rest)
    simp [remediateServices, hs, ih (fun x hx => h x (List.mem_cons_of_mem s hx))]

theorem remediateServices_abort (world : World) (dryRun : Bool) :
    ∀ (pre : List String) (b : String) (post : List String) (e : GuardError),
      (∀ s ∈ pre, (remediateService world dryRun s).2 = none) →
      (remediateService world dryRun b).2 = some e →
      remediateServices world dryRun (pre ++ b :: post) =
        (((pre ++ [b]).map (fun s => (remediateService world dryRun s).1)).flatten, some e) := by
  intro pre b post e hpre hb
  induction pre with
  | nil => simp [remediateServices, hb]
  | cons s rest ih =>
    have hs := hpre s (by simp)
    simp [remediateServices, hs, ih (fun x hx => hpre x (by simp [hx]))]

theorem remediateServices_ok_each (world : World) (dryRun : Bool) :
    ∀ ss : List String, (remediateServices world dryRun ss).2 = none →
      ∀ s ∈ ss, (remediateService world dryRun s).2 = none := by
  intro ss
  induction ss with
  | nil =>
    intro _ s hs
    cases hs
  | cons s rest ih =>
    intro h x hx
    rcases hstep : (remediateService world dryRun s).2 with _ | e
    · have htail : (remediateServices world dryRun rest).2 = none := by
        simp only [remediateServices] at h
        rw [hstep] at h
        simpa using h
      rcases List.mem_cons.mp hx with rfl | hx'
      · exact hstep
      · exact ih htail x hx'
    · exfalso
      simp only [remediateServices] at h
      rw [hstep] at h
      simp at h

theorem remediationPhase_finished (cfg : Config) (world : World) (d : Bool)
    (n : Nat) (calls : List Call)
    (h : remediationPhase cfg world d = (HandlerOutcome.finished n, calls)) :
    n = (parseServices cfg.servicesRaw).length := by
  by_cases hc : (strFalsy cfg.projectId || (parseServices cfg.servicesRaw).isEmpty) = true
  · simp [remediationPhase, hc] at h
  · simp only [remediationPhase, hc, if_false, Bool.false_eq_true] at h
    split at h
    · simp at h
    · simp at h
      exact h.1.symm

/-- A concrete world whose patches return an operation that completes with an
error, for witnesses. -/
def failWorld : World :=
  { policyOf := fun _ => { bindings := [], rest := [] }
    patchOpName := fun _ => some "op1"
    opPoll := fun _ _ => { done := true, error := some "boom" } }

/-- C8: the orchestrator runs the services strictly in list order, each
service's trace being policy-editor calls followed by ingress calls; if every
service succeeds the trace is the in-order concatenation with no error; the
first service whose remediation raises aborts the loop with that error and
the trace stops at that service; when the loop's error is `none` every listed
service succeeded; and a `finished n` outcome carries exactly the configured
service count. -/
theorem orchestrator_order_and_abort (world : World) (dryRun : Bool) :
    (∀ ss : List String, (∀ s ∈ ss, (remediateService world dryRun s).2 = none) →
      remediateServices world dryRun ss =
        ((ss.map (fun s => (remediateService world dryRun s).1)).flatten, none)) ∧
    (∀ (pre : List String) (b : String) (post : List String) (e : GuardError),
      (∀ s ∈ pre, (remediateService world dryRun s).2 = none) →
      (remediateService world dryRun b).2 = some e →
      remediateServices world dryRun (pre ++ b :: post) =
        (((pre ++ [b]).map (fun s => (remediateService world dryRun s).1)).flatten, some e)) ∧
    (∀ ss : List String, (remediateServices world dryRun ss).2 = none →
      ∀ s ∈ ss, (remediateService world dryRun s).2 = none) ∧
    (∀ (cfg : Config) (parsed : Except DecodeError Payload) (n : Nat) (calls : List Call),
      handleBudgetAlert cfg world parsed = (HandlerOutcome.finished n, calls) →
      n = (parseServices cfg.servicesRaw).length) := by
  refine ⟨remediateServices_all_ok world dryRun, remediateServices_abort world dryRun,
    remediateServices_ok_each world dryRun, ?_⟩
  intro cfg parsed n calls h
  cases parsed with
  | error e => simp [handleBudgetAlert] at h
  | ok payload =>
    simp only [handleBudgetAlert] at h
    split at h
    · simp at h
    · split at h
      · simp at h
      · split at h
        · simp at h
        · exact remediationPhase_finished cfg world (toBool cfg.dryRunRaw) n calls h

theorem fail_service_err : (remediateService failWorld false "a").2 =
    some (GuardError.operationFailed "boom") := by
  simp [remediateService, restrictIngress, failWorld, waitOperation, waitLoop,
    defaultTimeoutSeconds, completedResult]

/-- Witness for C8: two healthy services yield the ordered two-patch trace
with no error; against a failing operation the loop stops at the first
service and its error propagates, the second service untouched. -/
theorem orchestrator_order_and_abort_witness :
    remediateServices sampleWorld false ["a", "b"] =
      ([Call.patchIngress "a", Call.patchIngress "b"], none) ∧
    remediateServices failWorld false ["a", "b"] =
      ([Call.patchIngress "a"], some (GuardError.operationFailed "boom")) := by
  constructor
  · have h := (orchestrator_order_and_abort sampleWorld false).1 ["a", "b"] (by decide)
    rw [h]
    decide
  · have h := (orchestrator_order_and_abort failWorld false).2.1 [] "a" ["b"]
      (GuardError.operationFailed "boom") (by simp) fail_service_err
    rw [List.nil_append] at h
    rw [h]
    simp [remediateService, restrictIngress, failWorld, waitOperation, waitLoop,
      defaultTimeoutSeconds, completedResult, dropPublicInvoker, rewriteBindings]

end BudgetGuard

namespace BudgetGuard

theorem waitLoop_timeout (poll : Nat → Operation) :
    ∀ n now deadline, deadline - now = n →
      (∀ k, now + 2 * k < deadline → (poll (now + 2 * k)).done = false) →
      waitLoop poll now deadline = WaitResult.operationTimeout := by
  intro n
  induction n using Nat.strong_induction_on with
  | _ n ih =>
    intro now deadline hn hnone
    rw [waitLoop]
    split
    · rename_i h
      have h0 : (poll now).done = false := by
        have h' := hnone 0 (by omega)
        simpa using h'
      simp only [h0, Bool.false_eq_true, if_false]
      exact ih (deadline - (now + 2)) (by omega) (now + 2) deadline rfl
        (fun k hk => by
          have h' := hnone (k + 1) (by omega)
          have harg : now + 2 * (k + 1) = now + 2 + 2 * k := by omega
          rwa [harg] at h')
    · rfl

theorem waitLoop_first_done (poll : Nat → Operation) :
    ∀ n now deadline k, deadline - now = n →
      now + 2 * k < deadline →
      (poll (now + 2 * k)).done = true →
      (∀ j, j < k → (poll (now + 2 * j)).done = false) →
      waitLoop poll now deadline = completedResult (poll (now + 2 * k)) := by
  intro n
  induction n using Nat.strong_induction_on with
  | _ n ih =>
    intro now deadline k hn hk hdone hfirst
    have hlt : now < deadline := by omega
    rw [waitLoop, dif_pos hlt]
    cases k with
    | zero =>
        have hdone' : (poll now).done = true := by simpa using hdone
        simp only [hdone', if_true]
        simp
    | succ j =>
        have h0 : (poll now).done = false := by
          have h' := hfirst 0 (by omega)
          simpa using h'
        simp only [h0, Bool.false_eq_true, if_false]
        have harg : now + 2 * (j + 1) = now + 2 + 2 * j := by omega
        rw [harg] at hk hdone
        rw [harg]
        exact ih (deadline - (now + 2)) (by omega) (now + 2) deadline j rfl hk hdone
          (fun i hi => by
            have h' := hfirst (i + 1) (by omega)
            have harg2 : now + 2 * (i + 1) = now + 2 + 2 * i := by omega
            rwa [harg2] at h')

end BudgetGuard

namespace BudgetGuard

/-- C6: the waiter polls at times now, now+2, now+4, ... strictly before the
deadline `now + timeoutSeconds` (default 120): it returns success exactly
when the first completed poll has no error field, raises the operation
failure carrying the error detail exactly when the first completed poll has
an error field, and times out exactly when no poll before the deadline
observes completion. -/
theorem wait_operation_spec (poll : Nat → Operation) (now timeoutSeconds : Nat) :
    defaultTimeoutSeconds = 120 ∧
    (waitOperation poll now timeoutSeconds = WaitResult.success ↔
      ∃ k, now + 2 * k < now + timeoutSeconds ∧ (poll (now + 2 * k)).done = true ∧
        (poll (now + 2 * k)).error = none ∧
        ∀ j, j < k → (poll (now + 2 * j)).done = false) ∧
    (∀ detail, waitOperation poll now timeoutSeconds = WaitResult.operationFailed detail ↔
      ∃ k, now + 2 * k < now + timeoutSeconds ∧ (poll (now + 2 * k)).done = true ∧
        (poll (now + 2 * k)).error = some detail ∧
        ∀ j, j < k → (poll (now + 2 * j)).done = false) ∧
    (waitOperation poll now timeoutSeconds = WaitResult.operationTimeout ↔
      ∀ k, now + 2 * k < now + timeoutSeconds → (poll (now + 2 * k)).done = false) := by
  classical
  have hunfold : waitOperation poll now timeoutSeconds =
      waitLoop poll now (now + timeoutSeconds) := rfl
  by_cases hex : ∃ k, now + 2 * k < now + timeoutSeconds ∧ (poll (now + 2 * k)).done = true
  · set k0 := Nat.find hex with hk0def
    have hspec := Nat.find_spec hex
    have hfirst : ∀ j, j < k0 → (poll (now + 2 * j)).done = false := by
      intro j hj
      by_contra hc
      rw [Bool.not_eq_false] at hc
      exact Nat.find_min hex hj ⟨by omega, hc⟩
    have huniq : ∀ k, now + 2 * k < now + timeoutSeconds → (poll (now + 2 * k)).done = true →
        (∀ j, j < k → (poll (now + 2 * j)).done = false) → k = k0 := by
      intro k hk hdk hfk
      rcases lt_trichotomy k k0 with h | h | h
      · exact absurd hdk (by rw [hfirst k h]; simp)
      · exact h
      · exact absurd hspec.2 (by rw [hfk k0 h]; simp)
    have heq : waitOperation poll now timeoutSeconds = completedResult (poll (now + 2 * k0)) :=
      hunfold.trans (waitLoop_first_done poll (now + timeoutSeconds - now) now
        (now + timeoutSeconds) k0 rfl hspec.1 hspec.2 hfirst)
    refine ⟨rfl, ?_, ?_, ?_⟩
    · cases herr : (poll (now + 2 * k0)).error with
      | none =>
        have hs : waitOperation poll now timeoutSeconds = WaitResult.success := by
          rw [heq]
          simp [completedResult, herr]
        exact ⟨fun _ => ⟨k0, hspec.1, hspec.2, herr, hfirst⟩, fun _ => hs⟩
      | some detail0 =>
        have hs : waitOperation poll now timeoutSeconds =
            WaitResult.operationFailed detail0 := by
          rw [heq]
          simp [completedResult, herr]
        constructor
        · intro h
          rw [hs] at h
          exact absurd h (by simp)
        · rintro ⟨k, hk, hdk, herrk, hfk⟩
          have hkk := huniq k hk hdk hfk
          subst hkk
          rw [herr] at herrk
          simp at herrk
    · intro detail
      cases herr : (poll (now + 2 * k0)).error with
      | none =>
        have hs : waitOperation poll now timeoutSeconds = WaitResult.success := by
          rw [heq]
          simp [completedResult, herr]
        constructor
        · intro h
          rw [hs] at h
          exact absurd h (by simp)
        · rintro ⟨k, hk, hdk, herrk, hfk⟩
          have hkk := huniq k hk hdk hfk
          subst hkk
          rw [herr] at herrk
          simp at herrk
      | some detail0 =>
        have hs : waitOperation poll now timeoutSeconds =
            WaitResult.operationFailed detail0 := by
          rw [heq]
          simp [completedResult, herr]
        constructor
        · intro h
          rw [hs] at h
          injection h with hdd
          exact ⟨k0, hspec.1, hspec.2, by rw [herr, hdd], hfirst⟩
        · rintro ⟨k, hk, hdk, herrk, hfk⟩
          have hkk := huniq k hk hdk hfk
          subst hkk
          rw [herr] at herrk
          injection herrk with hdd
          rw [hs, hdd]
    · constructor
      · intro h
        exact absurd h (by
          rw [heq]
          cases herr2 : (poll (now + 2 * k0)).error <;> simp [completedResult, herr2])
      · intro hall
        exact absurd hspec.2 (by rw [hall k0 hspec.1]; simp)
  · have hall : ∀ k, now + 2 * k < now + timeoutSeconds →
        (poll (now + 2 * k)).done = false := by
      intro k hk
      by_contra hc
      rw [Bool.not_eq_false] at hc
      exact hex ⟨k, hk, hc⟩
    have heq : waitOperation poll now timeoutSeconds = WaitResult.operationTimeout :=
      hunfold.trans (waitLoop_timeout poll (now + timeoutSeconds - now) now
        (now + timeoutSeconds) rfl hall)
    refine ⟨rfl, ?_, ?_, ?_⟩
    · constructor
      · intro h
        rw [heq] at h
        exact absurd h (by simp)
      · rintro ⟨k, hk, hdk, _, _⟩
        rw [hall k hk] at hdk
        simp at hdk
    · intro detail
      constructor
      · intro h
        rw [heq] at h
        exact absurd h (by simp)
      · rintro ⟨k, hk, hdk, _, _⟩
        rw [hall k hk] at hdk
        simp at hdk
    · exact ⟨fun _ => hall, fun _ => heq⟩

end BudgetGuard

namespace BudgetGuard

/-- Witness for C6: a poll that completes cleanly at time 4 makes the waiter
succeed within a deadline of 10. -/
theorem wait_operation_spec_witness :
    waitOperation (fun t => if t < 4 then { done := false, error := none }
      else { done := true, error := none }) 0 10 = WaitResult.success :=
  ((wait_operation_spec (fun t => if t < 4 then { done := false, error := none }
      else { done := true, error := none }) 0 10).2.1).mpr
    ⟨2, by decide, by decide, by decide, by decide⟩

end BudgetGuard
